import Mathlib

/-!
Verification of the czech-translator repository.

The repository has two Python modules:
* `main.py` — reads Czech words from a CSV file (`read_czech_words`),
  translates each word by calling an external text-generation service
  (`translate_word`), runs the translations on a bounded thread pool and
  writes one CSV row per completed item (`main`, `write_result_to_csv`);
* `read_anki.py` — extracts the first whitespace-delimited token of each
  non-blank line of a text file, stripping quote characters
  (`extract_first_words`, `main`).

The definitions below are a shallow embedding of that code.  Strings are
modelled with Lean `String`s; the Python string primitives used by the code
(`str.strip`, `str.split`, `str.lower`, `re.sub` with a character class)
are embedded as explicit functions over the character list of a string, so
that everything evaluates by kernel reduction.  The external service call
is modelled by a parameter of type `Except String ServiceResponse`: `.ok`
is a successfully parsed JSON response (each key optional, `none` = key
absent), `.error e` is any raised exception (network error, malformed
response, JSON parse failure) with message `e`.
-/

/-- The character class of Python `str.strip()` / `str.split()` whitespace,
restricted to the ASCII whitespace characters Lean's `Char.isWhitespace`
recognises (space, tab, carriage return, newline). -/
def pyWS (c : Char) : Bool := c.isWhitespace

/-- Embedding of Python `s.strip()`: drop whitespace from both ends. -/
def pyStrip (s : String) : String :=
  ⟨((s.data.dropWhile pyWS).reverse.dropWhile pyWS).reverse⟩

/-- Embedding of Python `s.lower()` (per-character lowering). -/
def pyLower (s : String) : String := ⟨s.data.map Char.toLower⟩

/-- `TranslationResult` from `main.py`: the TypedDict returned by
`translate_word`.  The Python field `example` is a Lean keyword, hence the
escaped field name. -/
structure TranslationResult where
  word : String
  word_type : String
  gender : Option String
  translation : String
  «example» : String
deriving DecidableEq, Repr

/-- The parsed JSON object returned by the external service in
`translate_word` (`main.py` line 71).  Each field is `none` when the key is
absent from the response, mirroring `result.get(key, default)`. -/
structure ServiceResponse where
  word : Option String
  word_type : Option String
  gender : Option String
  translation : Option String
  «example» : Option String
deriving DecidableEq, Repr

/-- Python truthiness of the `gender` value obtained by
`result.get("gender", None)`: falsy exactly when the key is absent
(`None`) or the value is the empty string. -/
def optTruthy : Option String → Bool
  | none => false
  | some s => s != ""

/-- Embedding of `translate_word` (`main.py` lines 38–99).  The whole body
runs inside `try`, so the network call, the JSON parse and the response
post-processing are summarised by the `svc` argument: `.ok r` is the parsed
response, `.error e` any exception caught by the `except` clause.  The
`.ok` branch mirrors lines 75–88, the `.error` branch lines 90–99. -/
def translate_word (word : String) (svc : Except String ServiceResponse) :
    TranslationResult :=
  match svc with
  | .error e =>
      { word := word
        word_type := "error"
        gender := none
        translation := "Error: " ++ e
        «example» := "" }
  | .ok result =>
      { word := result.word.getD word
        word_type :=
          if pyLower (result.word_type.getD "") = "noun" ∧
              optTruthy result.gender = true then
            (result.word_type.getD "") ++ " (" ++ result.gender.getD "" ++ ")"
          else
            result.word_type.getD ""
        gender := result.gender
        translation := result.translation.getD ""
        «example» := result.«example».getD "" }

/-- The `word` value of the raw service outcome: `none` when the call
failed or the response has no `word` key. -/
def responseWordField : Except String ServiceResponse → Option String
  | .error _ => none
  | .ok r => r.word

/-! ## Source Reader (`read_czech_words`, `main.py` lines 21–36)

The input is modelled after CSV parsing: a list of rows, each row a list of
column strings (an empty file line is the empty row `[]`). -/

/-- The word a row contributes: `none` when the row is empty or its first
column is blank after stripping (`if row and row[0].strip()`), otherwise the
stripped first column. -/
def rowWord (row : List String) : Option String :=
  match row with
  | [] => none
  | c :: _ => if pyStrip c = "" then none else some (pyStrip c)

/-- Embedding of `read_czech_words`: fold over the rows, appending each
contributed word only when it is not already in the accumulated list
(`if row[0].strip() not in words: words.append(...)`). -/
def read_czech_words (rows : List (List String)) : List String :=
  rows.foldl
    (fun words row =>
      match rowWord row with
      | none => words
      | some w => if w ∈ words then words else words ++ [w])
    []

/-- Specification-side definition of first-occurrence deduplication, written
from the spec's words ("deduplicated by exact string match while preserving
first-seen order"): keep the head, delete its later occurrences, recurse. -/
def firstOccDedup : List String → List String
  | [] => []
  | w :: ws => w :: firstOccDedup (ws.filter (fun x => x != w))
termination_by l => l.length
decreasing_by
  simp only [List.length_cons]
  exact Nat.lt_succ_of_le (List.length_filter_le _ _)

/-! ## Result Sink and Concurrent Dispatcher (`main.py` lines 101–112 and 127–192) -/

/-- The projection of a result written by `write_result_to_csv`
(`main.py` lines 101–110): the four columns, gender folded into
`word_type` already by `translate_word`. -/
def rowOf (r : TranslationResult) : List String :=
  [r.word, r.word_type, r.translation, r.«example»]

/-- The header row written by `csv_writer.writeheader()`
(`main.py` lines 149–151). -/
def headerRow : List String := ["word", "word_type", "translation", "example"]

/-- One `csv_writer.writerow` event: append one full row to the file. -/
def writeRow (file : List (List String)) (r : TranslationResult) :
    List (List String) :=
  file ++ [rowOf r]

/-- The output file after the dispatcher loop has consumed the first `k`
completion events of `results`: the header is written once up front, then
each consumed completion appends one row (`main.py` lines 147–176). -/
def sinkAfter (results : List TranslationResult) (k : Nat) :
    List (List String) :=
  (results.take k).foldl writeRow [headerRow]

/-- The rows produced by the `as_completed` loop of `main`
(`main.py` lines 165–189).  `order` is the completion order of the futures
(some permutation of the input words); `behave w` is the outcome of
`future.result()` for word `w`: `.ok r` when the unit of work returned
result `r`, `.error e` when it raised an unexpected exception `e`, in which
case the `except` branch (lines 178–189) writes an error row built from the
word itself. -/
def mainRows (order : List String)
    (behave : String → Except String TranslationResult) :
    List (List String) :=
  order.map fun w =>
    match behave w with
    | .ok r => rowOf r
    | .error e =>
        rowOf
          { word := w
            word_type := "error"
            gender := none
            translation := "Error: " ++ e
            «example» := "" }

/-! ## Token Extractor (`read_anki.py`) -/

/-- The sanitization set of `re.sub` in `extract_first_words`
(`read_anki.py` line 26): the regex character class `["\x27\"`]`, i.e. the
ASCII double quote, the ASCII single quote and the backtick (the double
quote is listed twice). -/
def isQuoteChar (c : Char) : Bool :=
  c == '\x22' || c == '\x27' || c == '\x60'

/-- Embedding of `line.strip().split()[0]`: the first maximal run of
non-whitespace characters of the stripped line (well defined because the
caller only uses it on lines whose stripped form is non-empty). -/
def firstTok (line : String) : String :=
  ⟨(pyStrip line).data.takeWhile (fun c => !pyWS c)⟩

/-- Embedding of `re.sub` removing every quote-class character, followed by
`.strip()` (`read_anki.py` line 26). -/
def cleanFirstWord (line : String) : String :=
  pyStrip ⟨(firstTok line).data.filter (fun c => !isQuoteChar c)⟩

/-- Embedding of the reading loop of `extract_first_words`
(`read_anki.py` lines 18–27): one output row per non-blank line, holding
that line's cleaned first token; blank lines are skipped. -/
def extract_first_words : List String → List String
  | [] => []
  | line :: rest =>
      if pyStrip line = "" then extract_first_words rest
      else cleanFirstWord line :: extract_first_words rest

/-- Embedding of `main` of `read_anki.py` (lines 47–54): with fewer than two
argv entries it prints usage and exits 1 (`none`); otherwise it calls
`extract_first_words(sys.argv[1])`, whose output path is the default
`"result.csv"` — `main` never forwards any further argument. -/
def readAnkiCli (argv : List String) : Option (String × String) :=
  match argv with
  | _prog :: input :: _rest => some (input, "result.csv")
  | _ => none

/-! ## Claim theorems -/

/-- Claim C1: on any internal failure (network error, malformed response,
JSON parse failure — any exception `e` caught by the `except` clause),
`translate_word` returns, rather than raises: the result has `word` equal
to the original input word, `word_type` equal to `"error"`, `gender`
absent, `translation` a string embedding the failure description, and
`example` empty.  Totality of the embedded function is the never-raises
half of the contract. -/
theorem translate_word_failure_contract (word e : String) :
    translate_word word (Except.error e) =
      { word := word
        word_type := "error"
        gender := none
        translation := "Error: " ++ e
        «example» := "" } := rfl

/-- Claim C9: on the success path the `word` field of the result equals the
response's `word` value when that key is present, and falls back to the
original input word only when the key is absent; hence the returned word
may differ from the input word (e.g. input `"psa"`, response word
`"pes"`). -/
theorem translate_word_word_from_response :
    (∀ (word wv : String) (wt g t ex : Option String),
        (translate_word word (Except.ok ⟨some wv, wt, g, t, ex⟩)).word = wv) ∧
    (∀ (word : String) (wt g t ex : Option String),
        (translate_word word (Except.ok ⟨none, wt, g, t, ex⟩)).word = word) ∧
    (translate_word "psa"
        (Except.ok ⟨some "pes", some "noun", some "ma", some "dog", none⟩)).word
      = "pes" ∧
    ("pes" : String) ≠ "psa" :=
  ⟨fun _ _ _ _ _ _ => rfl, fun _ _ _ _ _ => rfl, rfl, by decide⟩

/-- Helper: appending a non-empty string changes a string. -/
theorem append_ne_self (s t : String) (h : t.length ≠ 0) : s ++ t ≠ s := by
  intro hc
  have hl := congrArg String.length hc
  rw [String.length_append] at hl
  omega

/-- Claim C3: the gender code is appended in parentheses to `word_type`
exactly when the returned `word_type` equals `"noun"` case-insensitively
and a (non-empty, per Python truthiness of `if ... and gender`) gender
value is present; `noun`/`f` yields `"noun (f)"`, while for any other
word_type such as `verb` the gender is never appended. -/
theorem translate_word_gender_suffix :
    (∀ (word wt g : String) (rw rt re : Option String),
        pyLower wt = "noun" → g ≠ "" →
        (translate_word word (Except.ok ⟨rw, some wt, some g, rt, re⟩)).word_type
            = wt ++ " (" ++ g ++ ")" ∧
        (translate_word word (Except.ok ⟨rw, some wt, some g, rt, re⟩)).word_type
            ≠ wt) ∧
    (∀ (word : String) (r : ServiceResponse),
        ¬(pyLower (r.word_type.getD "") = "noun" ∧ optTruthy r.gender = true) →
        (translate_word word (Except.ok r)).word_type = r.word_type.getD "") ∧
    (translate_word "w"
        (Except.ok ⟨none, some "noun", some "f", none, none⟩)).word_type
      = "noun (f)" ∧
    (translate_word "w"
        (Except.ok ⟨none, some "verb", some "f", none, none⟩)).word_type
      = "verb" := by
  refine ⟨?_, ?_, ?_, ?_⟩
  · intro word wt g rw rt re hnoun hg
    have hcond : pyLower wt = "noun" ∧ optTruthy (some g) = true := by
      refine ⟨hnoun, ?_⟩
      simp [optTruthy, hg]
    constructor
    · simp only [translate_word, Option.getD_some]
      rw [if_pos]
      exact hcond
    · simp only [translate_word, Option.getD_some]
      rw [if_pos hcond]
      have h3 : (" (" ++ g ++ ")").length ≠ 0 := by
        rw [String.length_append, String.length_append]
        have : (" (" : String).length = 2 := rfl
        omega
      have := append_ne_self wt (" (" ++ g ++ ")") h3
      simpa [String.append_assoc] using this
  · intro word r hneg
    simp only [translate_word]
    rw [if_neg hneg]
  · decide
  · decide

/-- Witness for C3: the service returns word type `noun` and gender `f`;
the processor's `word_type` is `"noun"` with `" (f)"` appended, and is not
the unchanged `"noun"`. -/
theorem translate_word_gender_suffix_witness :
    (translate_word "pes"
        (Except.ok ⟨none, some "noun", some "f", none, none⟩)).word_type
        = "noun" ++ " (" ++ "f" ++ ")" ∧
    (translate_word "pes"
        (Except.ok ⟨none, some "noun", some "f", none, none⟩)).word_type
        ≠ "noun" :=
  translate_word_gender_suffix.1 "pes" "noun" "f" none none none (by decide)
    (by decide)

/-- Counterexample for C6: the claim says the `word` field is non-empty for
every input word and every service behaviour, but when the service response
contains the key `word` with value `""`, `result.get("word", word)` returns
that empty string and the result's `word` field is empty. -/
theorem translate_word_empty_word_cex :
    (translate_word "pes"
        (Except.ok ⟨some "", some "noun", some "f", some "dog", some "x"⟩)).word
      = "" := rfl

/-- Claim C6 (amended): the result record is always fully populated — the
embedding's `TranslationResult` makes `word_type`, `translation` and
`example` total string fields — and the `word` field is non-empty provided
the input word is non-empty and the service response, when it carries a
`word` key, carries a non-empty one; under every failure the `word` field
is the original input word. -/
theorem translate_word_nonempty (word : String)
    (svc : Except String ServiceResponse) (h1 : word ≠ "")
    (h2 : ∀ w, responseWordField svc = some w → w ≠ "") :
    (translate_word word svc).word ≠ "" ∧
    ∀ e, svc = Except.error e → (translate_word word svc).word = word := by
  constructor
  · match svc with
    | .error e => simpa [translate_word] using h1
    | .ok r =>
        match hr : r.word with
        | none =>
            simp only [translate_word, hr, Option.getD_none]
            exact h1
        | some w =>
            simp only [translate_word, hr, Option.getD_some]
            exact h2 w (by simp [responseWordField, hr])
  · intro e he
    subst he
    rfl

/-- Witness for C6's amended claim: input word `"pes"`, service response
with no `word` key; the result's `word` field is non-empty. -/
theorem translate_word_nonempty_witness :
    (translate_word "pes"
        (Except.ok ⟨none, none, none, none, none⟩)).word ≠ "" ∧
    ∀ e, (Except.ok ⟨none, none, none, none, none⟩ :
        Except String ServiceResponse) = Except.error e →
      (translate_word "pes"
          (Except.ok ⟨none, none, none, none, none⟩)).word = "pes" :=
  translate_word_nonempty "pes" (Except.ok ⟨none, none, none, none, none⟩)
    (by decide) (fun w h => by cases h)

/-- Helper: membership in `firstOccDedup` is membership in the original
list. -/
theorem mem_firstOccDedup (l : List String) (x : String) :
    x ∈ firstOccDedup l ↔ x ∈ l := by
  induction l using firstOccDedup.induct with
  | case1 => simp [firstOccDedup]
  | case2 w ws ih =>
      rw [firstOccDedup]
      by_cases hxw : x = w
      · simp [hxw]
      · simp only [List.mem_cons, hxw, false_or, ih, List.mem_filter]
        simp [hxw]

/-- Helper: `firstOccDedup` always produces a duplicate-free list. -/
theorem nodup_firstOccDedup (l : List String) : (firstOccDedup l).Nodup := by
  induction l using firstOccDedup.induct with
  | case1 => simp [firstOccDedup]
  | case2 w ws ih =>
      rw [firstOccDedup]
      refine List.nodup_cons.mpr ⟨?_, ih⟩
      intro hmem
      rw [mem_firstOccDedup] at hmem
      have := (List.mem_filter.mp hmem).2
      simp at this

/-- Helper: the append-if-absent fold over a word list is first-occurrence
deduplication of the words not already accumulated. -/
theorem words_fold_eq (ws : List String) : ∀ acc : List String,
    ws.foldl (fun acc w => if w ∈ acc then acc else acc ++ [w]) acc
      = acc ++ firstOccDedup (ws.filter (fun w => decide (¬w ∈ acc))) := by
  induction ws with
  | nil => intro acc; simp [firstOccDedup]
  | cons w ws ih =>
      intro acc
      by_cases hw : w ∈ acc
      · rw [List.foldl_cons, if_pos hw, ih]
        have hfilter : (w :: ws).filter (fun w => decide (¬w ∈ acc))
            = ws.filter (fun w => decide (¬w ∈ acc)) := by
          simp [List.filter_cons, hw]
        rw [hfilter]
      · rw [List.foldl_cons, if_neg hw, ih]
        have hfilter : (w :: ws).filter (fun w => decide (¬w ∈ acc))
            = w :: ws.filter (fun w => decide (¬w ∈ acc)) := by
          simp [List.filter_cons, hw]
        rw [hfilter, firstOccDedup]
        have hff : (ws.filter (fun w => decide (¬w ∈ acc))).filter
              (fun x => x != w)
            = ws.filter (fun x => decide (¬x ∈ acc ++ [w])) := by
          rw [List.filter_filter]
          refine List.filter_congr ?_
          intro a _
          by_cases h1 : a ∈ acc <;> by_cases h2 : a = w <;>
            simp [h1, h2, List.mem_append]
        rw [hff]
        simp [List.append_assoc]

/-- Helper: folding the row-reading step is folding the append-if-absent
step over the words the rows contribute. -/
theorem rows_fold_eq (rows : List (List String)) : ∀ acc : List String,
    rows.foldl
        (fun words row =>
          match rowWord row with
          | none => words
          | some w => if w ∈ words then words else words ++ [w])
        acc
      = (rows.filterMap rowWord).foldl
          (fun acc w => if w ∈ acc then acc else acc ++ [w]) acc := by
  induction rows with
  | nil => intro acc; simp
  | cons row rows ih =>
      intro acc
      rw [List.foldl_cons, List.filterMap_cons]
      match h : rowWord row with
      | none => simp only [h]; exact ih _
      | some w => simp only [h, List.foldl_cons]; exact ih _

/-- Claim C4: `read_czech_words` returns the stripped first column of each
row that is non-empty and has a non-blank first column, deduplicated by
exact string match with first-occurrence order preserved, so the result has
no duplicates; rows `"pes"`, `"kočka"`, `"pes"` yield `["pes", "kočka"]`. -/
theorem read_czech_words_dedup_first_occurrence :
    (∀ rows : List (List String),
        read_czech_words rows = firstOccDedup (rows.filterMap rowWord) ∧
        (read_czech_words rows).Nodup) ∧
    read_czech_words [["pes"], ["kočka"], ["pes"]] = ["pes", "kočka"] := by
  have key : ∀ rows : List (List String),
      read_czech_words rows = firstOccDedup (rows.filterMap rowWord) := by
    intro rows
    unfold read_czech_words
    rw [rows_fold_eq, words_fold_eq]
    simp
  refine ⟨fun rows => ⟨key rows, ?_⟩, ?_⟩
  · rw [key rows]
    exact nodup_firstOccDedup _
  · decide

/-- Claim C2: for any completion order that is a permutation of the `N`
input work items and any per-item outcome (success or unexpected
exception), the dispatcher loop writes exactly `N` rows — one per work
item, none dropped, none duplicated (the map produces the rows of the
completion order pointwise) — and an unexpected exception surfaced for one
item's future becomes an error row carrying that item's word instead of
aborting the batch. -/
theorem main_one_row_per_item (items order : List String)
    (behave : String → Except String TranslationResult)
    (h : order.Perm items) :
    (mainRows order behave).length = items.length ∧
    (∀ w, w ∈ items ↔ w ∈ order) ∧
    (∀ w e, w ∈ order → behave w = Except.error e →
      rowOf
          { word := w
            word_type := "error"
            gender := none
            translation := "Error: " ++ e
            «example» := "" }
        ∈ mainRows order behave) := by
  refine ⟨?_, ?_, ?_⟩
  · rw [mainRows, List.length_map]
    exact h.length_eq
  · intro w
    exact (h.mem_iff).symm
  · intro w e hw hb
    refine List.mem_map.mpr ⟨w, hw, ?_⟩
    rw [hb]

/-- Witness for C2: two items completing in reversed order, one of them
through an unexpected exception, still give exactly two rows, and the
failed item appears as an error row for its own word. -/
theorem main_one_row_per_item_witness :
    (mainRows ["kočka", "pes"]
        (fun w =>
          if w = "pes" then Except.error "boom"
          else Except.ok ⟨"kočka", "noun (f)", some "f", "cat", "To je kočka."⟩)).length
      = (["pes", "kočka"] : List String).length ∧
    (∀ w, w ∈ (["pes", "kočka"] : List String) ↔
      w ∈ (["kočka", "pes"] : List String)) ∧
    (∀ w e, w ∈ (["kočka", "pes"] : List String) →
      (fun w =>
          if w = "pes" then Except.error "boom"
          else Except.ok (⟨"kočka", "noun (f)", some "f", "cat", "To je kočka."⟩ :
            TranslationResult)) w = Except.error e →
      rowOf
          { word := w
            word_type := "error"
            gender := none
            translation := "Error: " ++ e
            «example» := "" }
        ∈ mainRows ["kočka", "pes"]
            (fun w =>
              if w = "pes" then Except.error "boom"
              else Except.ok ⟨"kočka", "noun (f)", some "f", "cat", "To je kočka."⟩)) :=
  main_one_row_per_item ["pes", "kočka"] ["kočka", "pes"] _ (by decide)

/-- Helper: a run of write events appends exactly the corresponding rows
after the initial file contents. -/
theorem foldl_writeRow_eq (l : List TranslationResult) :
    ∀ init : List (List String),
      l.foldl writeRow init = init ++ l.map rowOf := by
  induction l with
  | nil => intro init; simp
  | cons r l ih =>
      intro init
      rw [List.foldl_cons, writeRow, ih, List.map_cons]
      simp

/-- Claim C7: the sink opens the destination once and writes the header
first; after the dispatcher has consumed `k` of the `n` completions the
file is the header plus exactly `k` rows, each a full four-column row (no
truncated or partial row), the header plus the first `k` consumed results
in order; and the file after `k` completions is a prefix of the file after
`k + 1`, so no row once written is ever retracted. -/
theorem sink_incremental_rows (results : List TranslationResult) (k : Nat)
    (h : k ≤ results.length) :
    sinkAfter results k = headerRow :: (results.take k).map rowOf ∧
    (sinkAfter results k).length = k + 1 ∧
    (∃ t, sinkAfter results k ++ t = sinkAfter results (k + 1)) ∧
    ∀ row ∈ sinkAfter results k, row.length = 4 := by
  have hk : ∀ m : Nat, sinkAfter results m
      = headerRow :: (results.take m).map rowOf := by
    intro m
    rw [sinkAfter, foldl_writeRow_eq]
    rfl
  refine ⟨hk k, ?_, ?_, ?_⟩
  · rw [hk k]
    simp [List.length_take, Nat.min_eq_left h]
  · refine ⟨((results.drop k).take 1).map rowOf, ?_⟩
    rw [hk k, hk (k + 1)]
    have : results.take (k + 1) = results.take k ++ (results.drop k).take 1 := by
      rw [← List.take_add]
    rw [this, List.map_append]
    simp
  · intro row hrow
    rw [hk k] at hrow
    rcases List.mem_cons.mp hrow with hh | hm
    · rw [hh]; rfl
    · rcases List.mem_map.mp hm with ⟨r, _, hr⟩
      rw [← hr]; rfl

/-- Witness for C7: one of two completions consumed; the file is the header
plus exactly that one full row, and is a prefix of the file after the
second completion. -/
theorem sink_incremental_rows_witness :
    sinkAfter
        [⟨"pes", "noun (ma)", some "ma", "dog", "To je pes."⟩,
         ⟨"kočka", "error", none, "Error: boom", ""⟩] 1
      = headerRow ::
          ((([⟨"pes", "noun (ma)", some "ma", "dog", "To je pes."⟩,
              ⟨"kočka", "error", none, "Error: boom", ""⟩] :
            List TranslationResult).take 1).map rowOf) ∧
    (sinkAfter
        [⟨"pes", "noun (ma)", some "ma", "dog", "To je pes."⟩,
         ⟨"kočka", "error", none, "Error: boom", ""⟩] 1).length = 1 + 1 ∧
    (∃ t, sinkAfter
        [⟨"pes", "noun (ma)", some "ma", "dog", "To je pes."⟩,
         ⟨"kočka", "error", none, "Error: boom", ""⟩] 1 ++ t
      = sinkAfter
          [⟨"pes", "noun (ma)", some "ma", "dog", "To je pes."⟩,
           ⟨"kočka", "error", none, "Error: boom", ""⟩] (1 + 1)) ∧
    ∀ row ∈ sinkAfter
        [⟨"pes", "noun (ma)", some "ma", "dog", "To je pes."⟩,
         ⟨"kočka", "error", none, "Error: boom", ""⟩] 1, row.length = 4 :=
  sink_incremental_rows
    [⟨"pes", "noun (ma)", some "ma", "dog", "To je pes."⟩,
     ⟨"kočka", "error", none, "Error: boom", ""⟩] 1 (by decide)

/-- Counterexample for C5: the claim says typographic quote variants are in
the sanitization set, but the regex character class of `re.sub` contains
only the ASCII double quote, the ASCII single quote and the backtick, so
the typographic quotes of `  “Ahoj” world` and `‘Čau’  ` survive and the
output rows are not `Ahoj` and `Čau`. -/
theorem extract_first_words_typographic_cex :
    extract_first_words ["  “Ahoj” world", "‘Čau’  ", ""]
      = ["“Ahoj”", "‘Čau’"] ∧
    extract_first_words ["  “Ahoj” world", "‘Čau’  ", ""]
      ≠ ["Ahoj", "Čau"] := by
  constructor
  · decide
  · decide

/-- Claim C5 (amended): for each non-blank line exactly one output row is
emitted, holding the line's first whitespace-delimited token with every
character of the sanitization set — the ASCII double quote, the ASCII
single quote and the backtick, with no typographic variants — removed and
the result trimmed; blank lines produce no row, so the ASCII-quoted lines
`  "Ahoj" world` and `'Čau'  ` followed by an empty line yield exactly the
rows `Ahoj` and `Čau`. -/
theorem extract_first_words_ascii_quote_contract :
    (∀ lines : List String,
        extract_first_words lines
          = (lines.filter (fun l => pyStrip l != "")).map cleanFirstWord) ∧
    extract_first_words ["  \x22Ahoj\x22 world", "\x27Čau\x27  ", ""]
      = ["Ahoj", "Čau"] := by
  constructor
  · intro lines
    induction lines with
    | nil => rfl
    | cons line rest ih =>
        by_cases h : pyStrip line = ""
        · simp only [extract_first_words, if_pos h, List.filter_cons]
          rw [ih]
          simp [h]
        · simp only [extract_first_words, if_neg h, List.filter_cons]
          rw [ih]
          simp [h]
  · decide

/-- Claim C10: the quote removal applies to every occurrence inside the
first token, not only at its ends, and a non-blank line whose first token
consists solely of sanitization-set characters produces an empty output
row (blank lines, in contrast, produce no row). -/
theorem extract_first_words_all_quote_token :
    (∀ line : String, pyStrip line ≠ "" →
        (firstTok line).data.all isQuoteChar = true →
        extract_first_words [line] = [""]) ∧
    extract_first_words ["a\x22b\x27c\x60d"] = ["abcd"] := by
  constructor
  · intro line h1 h2
    simp only [extract_first_words, if_neg h1]
    have hfil : (firstTok line).data.filter (fun c => !isQuoteChar c) = [] := by
      rw [List.filter_eq_nil_iff]
      intro c hc
      have hq := List.all_eq_true.mp h2 c hc
      simp [hq]
    have hclean : cleanFirstWord line = "" := by
      rw [cleanFirstWord, hfil]
      rfl
    rw [hclean]
  · decide

/-- Witness for C10: a line whose sole token is `"'` followed by a
backtick; the extractor emits one empty row for it. -/
theorem extract_first_words_all_quote_token_witness :
    extract_first_words ["\x22\x27\x60"] = [""] :=
  extract_first_words_all_quote_token.1 "\x22\x27\x60" (by decide) (by decide)

/-- Counterexample for C8: invoked with a second positional argument
`out.csv`, the CLI still uses the default output path `result.csv` — the
second argument is never forwarded to `extract_first_words`. -/
theorem read_anki_second_arg_ignored :
    readAnkiCli ["read_anki.py", "deck.txt", "out.csv"]
      = some ("deck.txt", "result.csv") ∧
    ("result.csv" : String) ≠ "out.csv" := by
  constructor
  · rfl
  · decide

/-- Claim C8 (amended): whenever an input argument is supplied the output
path is the default `result.csv` — a second positional argument, if
supplied, is ignored — and with no input argument the CLI exits with an
error instead of running. -/
theorem read_anki_output_always_default :
    (∀ (prog input : String) (rest : List String),
        readAnkiCli (prog :: input :: rest) = some (input, "result.csv")) ∧
    (∀ prog : String, readAnkiCli [prog] = none) ∧
    readAnkiCli ([] : List String) = none :=
  ⟨fun _ _ _ => rfl, fun _ => rfl, rfl⟩
